import Mathlib

/-!
Shallow embedding of the Velo e-commerce checkout/inventory core
(`catalog/services/product_service.py`, `cart/services/services.py`,
`orders/services/services.py`, and the models in `catalog/models.py`,
`cart/models.py`, `orders/models.py`).

Modelling conventions:
* Fixed-point 2-decimal `Decimal` money values are represented exactly as
  integer cents (`Int`).  All arithmetic the code performs on them
  (sums, products with integer quantities) is exact in cents; the single
  rounding step `quantize(Decimal("0.01"))` is modelled by an explicit
  integer rounding function with Python `Decimal`'s default
  `ROUND_HALF_EVEN` mode.
* `stock_quantity` is a `PositiveIntegerField` (a non-negative DB column);
  it is modelled as `Int` so that non-negativity is a provable invariant
  rather than a typing artefact.
* Database tables are lists of records; primary-key lookup is `List.find?`.
* A Django queryset with no explicit `order_by` uses the model's
  `Meta.ordering`; for `ProductVariant` that is `["price"]`, so the
  `SELECT ... FOR UPDATE` issued by `lock_variants` returns (and hence
  locks) rows in ascending-price order.  Ties between equal prices are
  returned in a database-chosen order; the model fixes the stable
  insertion-sort order for them.
* `@transaction.atomic` is modelled by running the function body as a
  state-threading computation whose error outcome carries the dirty
  intermediate state, and discarding that dirty state (restoring the
  entry state) when an exception escapes the block.
* `rest_framework.ValidationError` payloads are abstracted to structured
  error kinds (the spec's error taxonomy); the message text is dropped.
-/

/-- Error kinds raised by the cart/checkout/inventory services.  Each
constructor corresponds to one `ValidationError` site in the source. -/
inductive Err where
  /-- Checkout: the user's cart has zero items. -/
  | emptyCart : Err
  /-- `VariantService.get_variant`: no variant with this id. -/
  | variantNotFound (variantId : Nat) : Err
  /-- Checkout: a cart item's variant id is missing from the locked map. -/
  | variantGone (variantId : Nat) : Err
  /-- `validate_stock`: the variant is deactivated. -/
  | variantInactive (variantId : Nat) : Err
  /-- `validate_stock`: requested quantity exceeds stock. -/
  | outOfStock (variantId : Nat) : Err
  /-- `decrease_stock`: the conditional UPDATE matched no row. -/
  | stockDecrementFailed (variantId : Nat) : Err
  /-- Cart services: the cart item id does not belong to the cart. -/
  | itemNotFound : Err
  /-- `update_item`: quantity below 1. -/
  | badQuantity : Err
deriving Repr, DecidableEq

/-- A row of the `catalog_productvariant` table.  `priceCents` models the
2-decimal `DecimalField` price exactly in cents. -/
structure Variant where
  id : Nat
  priceCents : Int
  stock_quantity : Int
  is_active : Bool
deriving Repr, DecidableEq

/-- A row of the `cart_cartitem` table (the fields the services read). -/
structure CartItem where
  id : Nat
  variant_id : Nat
  quantity : Int
  note : String
deriving Repr, DecidableEq

/-- A cart item as loaded by `cart.items.select_related("variant")`:
the joined `variant` is the row as it existed at load time, which can be
older than the rows later read under lock. -/
structure LoadedCartItem where
  variant_id : Nat
  quantity : Int
  note : String
  variant : Variant
deriving Repr, DecidableEq

/-- Order status enum (`Order.Status`). -/
inductive OrderStatus where
  | pending | confirmed | processing | shipped | delivered | cancelled
deriving Repr, DecidableEq

/-- A row of the `orders_order` table.  `ordid` is a surrogate for the
UUID primary key: the model allocates consecutive naturals. -/
structure OrderRec where
  ordid : Nat
  subtotalCents : Int
  taxCents : Int
  totalCents : Int
  status : OrderStatus
deriving Repr, DecidableEq

/-- A row of the `orders_orderitem` table. -/
structure OrderItemRec where
  order_id : Nat
  variant_id : Nat
  quantity : Int
  price_at_purchase : Int
  note : String
deriving Repr, DecidableEq

/-- `OrderItem.line_total = price_at_purchase * quantity` (a computed
property, never stored). -/
def OrderItemRec.line_total (oi : OrderItemRec) : Int :=
  oi.price_at_purchase * oi.quantity

/-- The database state touched by checkout: the variant table, the
current user's cart items, and the order tables. -/
structure State where
  variants : List Variant
  cart_items : List CartItem
  orders : List OrderRec
  order_items : List OrderItemRec
deriving Repr, DecidableEq

/-- Primary-key lookup in the variant table. -/
def findVariant (table : List Variant) (vid : Nat) : Option Variant :=
  table.find? (fun v => v.id == vid)

/-- `VariantService.validate_stock`: raises if the variant is inactive or
the requested quantity exceeds its `stock_quantity`; pure check. -/
def validate_stock (v : Variant) (requested_qty : Int) : Except Err Unit :=
  if !v.is_active then .error (.variantInactive v.id)
  else if requested_qty > v.stock_quantity then .error (.outOfStock v.id)
  else .ok ()

/-- The conditional UPDATE inside `VariantService.decrease_stock`:
`filter(id=variant_id, stock_quantity__gte=quantity).update(stock_quantity=F("stock_quantity") - quantity)`.
Returns the new table and the number of rows that matched. -/
def update_where (table : List Variant) (vid : Nat) (qty : Int) :
    List Variant × Nat :=
  (table.map (fun v =>
      if v.id = vid ∧ qty ≤ v.stock_quantity then
        { v with stock_quantity := v.stock_quantity - qty }
      else v),
   table.countP (fun v => decide (v.id = vid ∧ qty ≤ v.stock_quantity)))

/-- `VariantService.decrease_stock`: the conditional UPDATE, raising
`stockDecrementFailed` when zero rows matched. -/
def decrease_stock (table : List Variant) (vid : Nat) (qty : Int) :
    Except Err (List Variant) :=
  let r := update_where table vid qty
  if r.2 = 0 then .error (.stockDecrementFailed vid) else .ok r.1

/-- Ordering used by the variant queryset: `ProductVariant.Meta.ordering
= ["price"]`, i.e. ascending price. -/
def priceLE (a b : Variant) : Prop := a.priceCents ≤ b.priceCents

instance : DecidableRel priceLE := fun a b => inferInstanceAs (Decidable (a.priceCents ≤ b.priceCents))

instance : IsTotal Variant priceLE := ⟨fun a b => Int.le_total a.priceCents b.priceCents⟩

instance : IsTrans Variant priceLE := ⟨fun _ _ _ h h' => le_trans h h'⟩

/-- `VariantService.lock_variants`: `SELECT ... FOR UPDATE` over
`filter(id__in=variant_ids)`.  The returned list is the row order of the
query — the order in which row locks are acquired.  With no explicit
`order_by`, Django applies `Meta.ordering = ["price"]`. -/
def lock_variants (table : List Variant) (ids : List Nat) : List Variant :=
  List.insertionSort priceLE (table.filter (fun v => decide (v.id ∈ ids)))

/-- The dict `{v.id: v for v in variants_qs}` built by `lock_variants`,
looked up with `variant_map.get(...)`. -/
def variant_map_get (locked : List Variant) (vid : Nat) : Option Variant :=
  locked.find? (fun v => v.id == vid)

/-- The join performed by `cart.items.select_related("variant")`: each
cart item together with its variant row as of the load-time snapshot
`loadVars`.  (The FK guarantees the variant exists at load time.) -/
def loadCartItems (loadVars : List Variant) (items : List CartItem) :
    List LoadedCartItem :=
  items.filterMap (fun it =>
    (findVariant loadVars it.variant_id).map
      (fun v => ⟨it.variant_id, it.quantity, it.note, v⟩))

/-- The per-item validation loop of `create_order_from_cart`: look each
cart item's variant up in the locked map (`variantGone` if absent) and
`validate_stock` it; the first failure aborts. -/
def validate_items (locked : List Variant) :
    List LoadedCartItem → Except Err Unit
  | [] => .ok ()
  | it :: rest =>
    match variant_map_get locked it.variant_id with
    | none => .error (.variantGone it.variant_id)
    | some v =>
      match validate_stock v it.quantity with
      | .error e => .error e
      | .ok _ => validate_items locked rest

/-- `TAX_RATE = Decimal("0.10")`, modelled as the exact rational 10/100. -/
def TAX_RATE_NUM : Int := 10

/-- Round `n / 100` to the nearest integer with ties to even — the
`ROUND_HALF_EVEN` mode that Python `Decimal.quantize` uses by default.
`n` is a non-negative numerator in hundredths. -/
def roundHalfEvenDiv100 (n : Nat) : Nat :=
  let q := n / 100
  let r := n % 100
  if r < 50 then q
  else if r > 50 then q + 1
  else if q % 2 = 0 then q else q + 1

/-- Sign-symmetric extension to `Int` (Python `Decimal` rounds by
magnitude). -/
def roundHalfEvenDiv100Int (n : Int) : Int :=
  if n < 0 then -(roundHalfEvenDiv100 (-n).toNat : Int)
  else (roundHalfEvenDiv100 n.toNat : Int)

/-- `(subtotal * TAX_RATE).quantize(Decimal("0.01"))`: with `subtotal`
exact in cents, `subtotal * 0.10` is the exact value
`subtotalCents * 10 / 100` cents, quantized half-even to whole cents. -/
def taxCents (subtotalCents : Int) : Int :=
  roundHalfEvenDiv100Int (subtotalCents * TAX_RATE_NUM)

/-- Modelled from the spec: `tax(subtotal) = round(subtotal × rate, 2,
half-up)` — rounding half-up instead, for comparison with the code. -/
def taxCents_spec_half_up (subtotalCents : Int) : Int :=
  let n := subtotalCents * TAX_RATE_NUM
  if n < 0 then -(((-n).toNat + 50) / 100 : Nat) else (((n).toNat + 50) / 100 : Nat)

/-- `subtotal = sum(item.variant.price * item.quantity for item in
cart_items)` — note `item.variant` is the load-time joined row. -/
def cartSubtotalCents (items : List LoadedCartItem) : Int :=
  (items.map (fun it => it.variant.priceCents * it.quantity)).sum

/-- The `OrderItem(...)` constructed for one cart item: snapshots the
load-time joined variant's price into `price_at_purchase`. -/
def mkOrderItem (oid : Nat) (it : LoadedCartItem) : OrderItemRec :=
  ⟨oid, it.variant_id, it.quantity, it.variant.priceCents, it.note⟩

/-- The order-item construction / stock-decrement loop of
`create_order_from_cart`: for each cart item, append the `OrderItem`
snapshot and run `decrease_stock`; a decrement failure raises with the
state as mutated so far. -/
def decrementLoop (oid : Nat) :
    List LoadedCartItem → State → List OrderItemRec →
    Except (Err × State) (List OrderItemRec × State)
  | [], s, acc => .ok (acc, s)
  | it :: rest, s, acc =>
    match decrease_stock s.variants it.variant_id it.quantity with
    | .error e => .error (e, s)
    | .ok table =>
      decrementLoop oid rest { s with variants := table }
        (acc ++ [mkOrderItem oid it])

/-- The body of `OrderService.create_order_from_cart`, run inside the
transaction.  `loadVars` is the committed variant-table snapshot seen by
the initial `select_related("variant")` join; `s.variants` is the (newer)
snapshot seen by the locked query.  An error carries the dirty state at
the raise point. -/
def create_order_body (loadVars : List Variant) (s : State) :
    Except (Err × State) (OrderRec × State) :=
  let cart_items := loadCartItems loadVars s.cart_items
  if cart_items.isEmpty then .error (.emptyCart, s)
  else
    let variant_ids := cart_items.map (fun it => it.variant_id)
    let locked := lock_variants s.variants variant_ids
    match validate_items locked cart_items with
    | .error e => .error (e, s)
    | .ok _ =>
      let subtotal := cartSubtotalCents cart_items
      let tax := taxCents subtotal
      let total := subtotal + tax
      let order : OrderRec := ⟨s.orders.length, subtotal, tax, total, .pending⟩
      let s1 : State := { s with orders := s.orders ++ [order] }
      match decrementLoop order.ordid cart_items s1 [] with
      | .error es => .error es
      | .ok (items, s2) =>
        let s3 : State := { s2 with order_items := s2.order_items ++ items }
        let s4 : State := { s3 with cart_items := [] }
        .ok (order, s4)

/-- `OrderService.create_order_from_cart` with its `@transaction.atomic`
decorator: if the body raises, the transaction rolls back and the
database state reverts to the entry state. -/
def create_order_from_cart (loadVars : List Variant) (s : State) :
    Except Err OrderRec × State :=
  match create_order_body loadVars s with
  | .error (e, _) => (.error e, s)
  | .ok (o, s2) => (.ok o, s2)

/-- `CartService.add_item`: fetch the variant (`variantNotFound` if
absent), validate the requested quantity, then `get_or_create` the
`(cart, variant)` row.  On an existing row the quantity is incremented
(after re-validating the new total) and the note is overwritten only when
the supplied note is non-empty (`item.note = note or item.note`).
`newId` is the surrogate for the UUID a freshly created row receives.
Returns `(cart items after, created)`. -/
def add_item (variants : List Variant) (items : List CartItem)
    (variant_id : Nat) (quantity : Int) (note : String) (newId : Nat) :
    Except Err (List CartItem × Bool) :=
  match findVariant variants variant_id with
  | none => .error (.variantNotFound variant_id)
  | some variant =>
    match validate_stock variant quantity with
    | .error e => .error e
    | .ok _ =>
      match items.find? (fun it => it.variant_id == variant_id) with
      | none => .ok (items ++ [⟨newId, variant_id, quantity, note⟩], true)
      | some item =>
        let new_qty := item.quantity + quantity
        match validate_stock variant new_qty with
        | .error e => .error e
        | .ok _ =>
          .ok (items.map (fun it =>
                 if it.variant_id = variant_id then
                   { it with quantity := new_qty,
                             note := if note = "" then it.note else note }
                 else it),
               false)

/-- `CartService.update_item`: look the item up by primary key within the
cart (`itemNotFound` if absent); when a quantity is given it must be ≥ 1
and pass `validate_stock` against the item's variant; when a note is
given (not `None`) it overwrites the stored note, including the empty
string.  Returns `(updated item, cart items after)`. -/
def update_item (variants : List Variant) (items : List CartItem)
    (item_pk : Nat) (quantity : Option Int) (note : Option String) :
    Except Err (CartItem × List CartItem) :=
  match items.find? (fun it => it.id == item_pk) with
  | none => .error .itemNotFound
  | some item =>
    match quantity with
    | some q =>
      if q < 1 then .error .badQuantity
      else
        match findVariant variants item.variant_id with
        | none => .error (.variantNotFound item.variant_id)
        | some v =>
          match validate_stock v q with
          | .error e => .error e
          | .ok _ =>
            let item2 := { item with quantity := q,
                                     note := (note.getD item.note) }
            .ok (item2, items.map (fun it => if it.id = item_pk then item2 else it))
    | none =>
      let item2 := { item with note := (note.getD item.note) }
      .ok (item2, items.map (fun it => if it.id = item_pk then item2 else it))

/-- One concurrent `decrease_stock` call, serialised at the database:
each call is a single atomic conditional UPDATE, so an interleaving of
concurrent calls is some serial sequence of them.  `runStockOps` applies
such a sequence of `(variant_id, quantity)` requests to the variant
table, recording for each whether it succeeded. -/
def runStockOps (table : List Variant) :
    List (Nat × Int) → List Variant × List Bool
  | [] => (table, [])
  | op :: rest =>
    match decrease_stock table op.1 op.2 with
    | .ok table2 =>
      let r := runStockOps table2 rest
      (r.1, true :: r.2)
    | .error _ =>
      let r := runStockOps table rest
      (r.1, false :: r.2)

/-- Total quantity of the successful decrements in a run: the sum of the
requested quantities at positions whose flag is `true`. -/
def succTotal (ops : List (Nat × Int)) (flags : List Bool) : Int :=
  ((ops.zip flags).filter (fun p => p.2)).foldr (fun p acc => p.1.2 + acc) 0

/-! ## Helper lemmas -/

/-- A successful `decrementLoop` run appends one `OrderItem` snapshot per
cart item to the accumulator and touches only the variant table. -/
theorem decrementLoop_ok (oid : Nat) (its : List LoadedCartItem) (s : State)
    (acc : List OrderItemRec) (items : List OrderItemRec) (s2 : State)
    (h : decrementLoop oid its s acc = .ok (items, s2)) :
    items = acc ++ its.map (mkOrderItem oid) ∧ s2.cart_items = s.cart_items
      ∧ s2.orders = s.orders ∧ s2.order_items = s.order_items := by
  induction its generalizing s acc with
  | nil =>
    simp only [decrementLoop, Except.ok.injEq, Prod.mk.injEq] at h
    simp [← h.1, ← h.2]
  | cons it rest ih =>
    simp only [decrementLoop] at h
    cases hd : decrease_stock s.variants it.variant_id it.quantity with
    | error e => rw [hd] at h; exact absurd h (by simp)
    | ok table =>
      rw [hd] at h
      have := ih _ _ h
      simpa [List.append_assoc] using this

/-- Inversion of a successful `create_order_body` run: the created
order's fields and the final state, in terms of the loaded cart items. -/
theorem create_order_body_ok (loadVars : List Variant) (s : State)
    (o : OrderRec) (s2 : State)
    (h : create_order_body loadVars s = .ok (o, s2)) :
    o.ordid = s.orders.length
      ∧ o.subtotalCents = cartSubtotalCents (loadCartItems loadVars s.cart_items)
      ∧ o.taxCents = taxCents o.subtotalCents
      ∧ o.totalCents = o.subtotalCents + o.taxCents
      ∧ o.status = .pending
      ∧ s2.orders = s.orders ++ [o]
      ∧ s2.order_items =
          s.order_items ++ (loadCartItems loadVars s.cart_items).map (mkOrderItem o.ordid)
      ∧ s2.cart_items = [] := by
  simp only [create_order_body] at h
  split at h
  · exact absurd h (by simp)
  · split at h
    · exact absurd h (by simp)
    · split at h
      · exact absurd h (by simp)
      · rename_i items s3 heq
        simp only [Except.ok.injEq, Prod.mk.injEq] at h
        obtain ⟨ho, hs⟩ := h
        obtain ⟨hitems, hc, hor, hoi⟩ := decrementLoop_ok _ _ _ _ _ _ heq
        subst ho hs
        simp_all

/-! ## Claim theorems -/

/-- C2: checkout is atomic — whenever `create_order_from_cart` fails (for
any reason and at any step: empty cart, missing/inactive variant,
insufficient stock, failed decrement), the database state it leaves
behind equals the starting state: no Order row, no OrderItem row, no
stock decrement, and the cart's items are unchanged. -/
theorem checkout_atomic_on_failure (loadVars : List Variant) (s : State)
    (e : Err) (s2 : State)
    (h : create_order_from_cart loadVars s = (.error e, s2)) : s2 = s := by
  simp only [create_order_from_cart] at h
  split at h
  · simp only [Prod.mk.injEq] at h
    exact h.2.symm
  · exact absurd h (by simp)

/-- Witness for C2 at a concrete input: a checkout that fails at the
stock-decrement step, after the Order row was already inserted inside the
transaction (the dirty intermediate state holds the order), still returns
the state unchanged. -/
theorem checkout_atomic_on_failure_witness :
    (create_order_body [⟨1, 100, 3, true⟩]
        ⟨[⟨1, 100, 3, true⟩], [⟨10, 1, 2, "x"⟩, ⟨11, 1, 2, "y"⟩], [], []⟩).toOption = none
    ∧ create_order_from_cart [⟨1, 100, 3, true⟩]
        ⟨[⟨1, 100, 3, true⟩], [⟨10, 1, 2, "x"⟩, ⟨11, 1, 2, "y"⟩], [], []⟩
        = (.error (.stockDecrementFailed 1),
           ⟨[⟨1, 100, 3, true⟩], [⟨10, 1, 2, "x"⟩, ⟨11, 1, 2, "y"⟩], [], []⟩)
    ∧ (⟨[⟨1, 100, 3, true⟩], [⟨10, 1, 2, "x"⟩, ⟨11, 1, 2, "y"⟩], [], []⟩ : State)
        = ⟨[⟨1, 100, 3, true⟩], [⟨10, 1, 2, "x"⟩, ⟨11, 1, 2, "y"⟩], [], []⟩ :=
  ⟨rfl, rfl,
   checkout_atomic_on_failure [⟨1, 100, 3, true⟩]
     ⟨[⟨1, 100, 3, true⟩], [⟨10, 1, 2, "x"⟩, ⟨11, 1, 2, "y"⟩], [], []⟩
     (.stockDecrementFailed 1) _ rfl⟩

/-- C8: checkout of a cart with zero items fails with `EmptyCart` and
creates no Order (the state, in particular the orders table, is
unchanged). -/
theorem checkout_empty_cart (loadVars : List Variant) (s : State)
    (h : s.cart_items = []) :
    (create_order_from_cart loadVars s).1 = .error .emptyCart
    ∧ (create_order_from_cart loadVars s).2 = s := by
  simp [create_order_from_cart, create_order_body, h, loadCartItems]

/-- Witness for C8 at a concrete input. -/
theorem checkout_empty_cart_witness :
    (create_order_from_cart [⟨1, 100, 3, true⟩] ⟨[⟨1, 100, 3, true⟩], [], [], []⟩).1
      = .error .emptyCart
    ∧ (create_order_from_cart [⟨1, 100, 3, true⟩] ⟨[⟨1, 100, 3, true⟩], [], [], []⟩).2
      = ⟨[⟨1, 100, 3, true⟩], [], [], []⟩ :=
  checkout_empty_cart [⟨1, 100, 3, true⟩] ⟨[⟨1, 100, 3, true⟩], [], [], []⟩ rfl

/-- C3: `decrease_stock(id, qty)` on a table whose unique row for `id` is
`v` succeeds if and only if `qty ≤ v.stock_quantity`; on success it
decrements that row's stock by exactly `qty` (other rows untouched); on
failure it raises `stockDecrementFailed` and the UPDATE changes nothing;
and every row's `stock_quantity ≥ 0` invariant is preserved by the
UPDATE. -/
theorem decrease_stock_conditional (table : List Variant) (vid : Nat)
    (qty : Int) (v : Variant)
    (huniq : table.filter (fun u => u.id == vid) = [v]) :
    ((∃ t, decrease_stock table vid qty = .ok t) ↔ qty ≤ v.stock_quantity)
    ∧ (qty ≤ v.stock_quantity →
        decrease_stock table vid qty =
          .ok (table.map (fun u =>
                if u.id = vid then
                  { u with stock_quantity := u.stock_quantity - qty }
                else u)))
    ∧ (v.stock_quantity < qty →
        decrease_stock table vid qty = .error (.stockDecrementFailed vid)
        ∧ (update_where table vid qty).1 = table)
    ∧ ((∀ u ∈ table, 0 ≤ u.stock_quantity) →
        ∀ u ∈ (update_where table vid qty).1, 0 ≤ u.stock_quantity) := by
  have hvmem : v ∈ table ∧ (v.id == vid) = true := by
    have : v ∈ table.filter (fun u => u.id == vid) := by rw [huniq]; simp
    exact List.mem_filter.mp this
  have hvid : v.id = vid := by simpa using hvmem.2
  have honly : ∀ u ∈ table, u.id = vid → u = v := by
    intro u hu hid
    have : u ∈ table.filter (fun u => u.id == vid) := by
      rw [List.mem_filter]; exact ⟨hu, by simpa using hid⟩
    rw [huniq] at this; simpa using this
  have hcount : (update_where table vid qty).2 = 0 ↔ ¬ qty ≤ v.stock_quantity := by
    simp only [update_where]
    rw [List.countP_eq_zero]
    constructor
    · intro hall hle
      have := hall v hvmem.1
      simp [hvid, hle] at this
    · intro hgt u hu
      by_cases hid : u.id = vid
      · have := honly u hu hid
        subst this
        simp [hvid, hgt]
      · simp [hid]
  refine ⟨?_, ?_, ?_, ?_⟩
  · constructor
    · rintro ⟨t, ht⟩
      by_contra hgt
      simp only [decrease_stock] at ht
      rw [if_pos (hcount.mpr hgt)] at ht
      exact absurd ht (by simp)
    · intro hle
      refine ⟨(update_where table vid qty).1, ?_⟩
      simp only [decrease_stock]
      rw [if_neg (fun h0 => (hcount.mp h0) hle)]
  · intro hle
    simp only [decrease_stock]
    rw [if_neg (fun h0 => (hcount.mp h0) hle)]
    congr 1
    simp only [update_where]
    apply List.map_congr_left
    intro u hu
    by_cases hid : u.id = vid
    · have := honly u hu hid
      subst this
      simp [hvid, hle]
    · simp [hid]
  · intro hgt
    have h0 := hcount.mpr (by omega)
    constructor
    · simp only [decrease_stock]
      rw [if_pos h0]
    · simp only [update_where] at h0 ⊢
      rw [List.countP_eq_zero] at h0
      have : ∀ u ∈ table,
          (if u.id = vid ∧ qty ≤ u.stock_quantity then
            { u with stock_quantity := u.stock_quantity - qty } else u) = u := by
        intro u hu
        have := h0 u hu
        simp only [decide_eq_true_eq] at this
        rw [if_neg this]
      rw [List.map_congr_left this]
      exact List.map_id table
  · intro hnn u hu
    simp only [update_where] at hu
    obtain ⟨w, hw, hwu⟩ := List.mem_map.mp hu
    by_cases hc : w.id = vid ∧ qty ≤ w.stock_quantity
    · rw [if_pos hc] at hwu
      have := hnn w hw
      subst hwu
      simp only
      omega
    · rw [if_neg hc] at hwu
      subst hwu
      exact hnn w hw

/-- Witness for C3 at concrete inputs: stock 3, decrement of 2 succeeds
and leaves 1; a further decrement of 2 fails and changes nothing. -/
theorem decrease_stock_conditional_witness :
    ((∃ t, decrease_stock [⟨1, 100, 3, true⟩] 1 2 = .ok t) ↔ (2 : Int) ≤ 3)
    ∧ decrease_stock [⟨1, 100, 1, true⟩] 1 2 = .error (.stockDecrementFailed 1)
    ∧ (update_where [⟨1, 100, 1, true⟩] 1 2).1 = [⟨1, 100, 1, true⟩] :=
  ⟨(decrease_stock_conditional [⟨1, 100, 3, true⟩] 1 2 ⟨1, 100, 3, true⟩ rfl).1,
   ((decrease_stock_conditional [⟨1, 100, 1, true⟩] 1 2 ⟨1, 100, 1, true⟩ rfl).2.2.1
     (by decide)).1,
   ((decrease_stock_conditional [⟨1, 100, 1, true⟩] 1 2 ⟨1, 100, 1, true⟩ rfl).2.2.1
     (by decide)).2⟩

/-- C4 counterexample: `lock_variants` issues its `SELECT ... FOR UPDATE`
with no `order_by("id")`, so the row (and hence lock-acquisition) order
is the queryset's default `Meta.ordering = ["price"]`.  For variants
id 1 (price 5.00) and id 2 (price 3.00) the locks are acquired in the
order [2, 1] — not ascending by id: a lock on the higher id is taken
first. -/
theorem lock_variants_not_sorted_by_id :
    (lock_variants [⟨1, 500, 5, true⟩, ⟨2, 300, 5, true⟩] [1, 2]).map Variant.id
      = [2, 1]
    ∧ ¬ List.Sorted (· ≤ ·)
        ((lock_variants [⟨1, 500, 5, true⟩, ⟨2, 300, 5, true⟩] [1, 2]).map Variant.id) := by
  constructor
  · rfl
  · intro hs
    have : (2 : Nat) ≤ 1 := by
      have h2 : ((lock_variants [⟨1, 500, 5, true⟩, ⟨2, 300, 5, true⟩] [1, 2]).map Variant.id)
          = [2, 1] := rfl
      rw [h2] at hs
      exact List.rel_of_sorted_cons hs 1 (by simp)
    omega

/-- C4 amended: `lock_variants` acquires its row locks in a sequence
that is ascending by price (the model's default ordering), for every
variant table and id set; ascending-by-id acquisition is not guaranteed. -/
theorem lock_variants_sorted_by_price (table : List Variant) (ids : List Nat) :
    List.Sorted priceLE (lock_variants table ids) :=
  List.sorted_insertionSort priceLE _

/-- Rounding characterisation: `roundHalfEvenDiv100 n` is within half a
unit of `n / 100`, and an exact half rounds to an even result. -/
theorem roundHalfEvenDiv100_near (n : Nat) :
    (-50 ≤ 100 * (roundHalfEvenDiv100 n : Int) - n
      ∧ 100 * (roundHalfEvenDiv100 n : Int) - n ≤ 50)
    ∧ ((100 * (roundHalfEvenDiv100 n : Int) - n = 50
        ∨ 100 * (roundHalfEvenDiv100 n : Int) - n = -50)
        → roundHalfEvenDiv100 n % 2 = 0) := by
  simp only [roundHalfEvenDiv100]
  split_ifs <;> refine ⟨⟨by omega, by omega⟩, fun h => by omega⟩

/-- Successful checkout exposes a successful body run. -/
theorem create_order_from_cart_ok (loadVars : List Variant) (s : State)
    (o : OrderRec) (h : (create_order_from_cart loadVars s).1 = .ok o) :
    ∃ s2, create_order_body loadVars s = .ok (o, s2) := by
  simp only [create_order_from_cart] at h
  split at h
  · exact absurd h (by simp)
  · rename_i o2 s2 heq
    simp only at h
    exact ⟨s2, by rw [heq]; cases h; rfl⟩

/-- C6 counterexample: for subtotal 0.25 the code's
`quantize(Decimal("0.01"))` rounds `0.025` half-even to tax 0.02
(total 0.27), while rounding half-up as the claim states would give
0.03 — so the computed tax is not half-up rounding. -/
theorem checkout_tax_not_half_up :
    (create_order_from_cart [⟨1, 25, 5, true⟩]
        ⟨[⟨1, 25, 5, true⟩], [⟨10, 1, 1, ""⟩], [], []⟩).1
      = .ok ⟨0, 25, 2, 27, .pending⟩
    ∧ taxCents_spec_half_up 25 = 3
    ∧ (2 : Int) ≠ 3 :=
  ⟨rfl, by decide, by decide⟩

/-- C6 amended: for every successful checkout, tax equals the subtotal
times the 10% rate quantized to 2 decimal places with round-half-even
(Python `Decimal`'s default), total equals subtotal + tax, and the
rounding is to the nearest cent with exact half-cent ties resolved to an
even cent value (not upward). -/
theorem checkout_tax_rounds_half_even (loadVars : List Variant) (s : State)
    (o : OrderRec) (h : (create_order_from_cart loadVars s).1 = .ok o)
    (hs : 0 ≤ o.subtotalCents) :
    o.taxCents = taxCents o.subtotalCents
    ∧ o.totalCents = o.subtotalCents + o.taxCents
    ∧ (-50 ≤ 100 * o.taxCents - 10 * o.subtotalCents
        ∧ 100 * o.taxCents - 10 * o.subtotalCents ≤ 50)
    ∧ ((100 * o.taxCents - 10 * o.subtotalCents = 50
        ∨ 100 * o.taxCents - 10 * o.subtotalCents = -50)
        → o.taxCents % 2 = 0) := by
  obtain ⟨s2, hb⟩ := create_order_from_cart_ok loadVars s o h
  obtain ⟨_, _, htax, htot, _⟩ := create_order_body_ok loadVars s o s2 hb
  refine ⟨htax, htot, ?_, ?_⟩
  · rw [htax]
    simp only [taxCents, roundHalfEvenDiv100Int, TAX_RATE_NUM]
    rw [if_neg (by omega)]
    have hnear := (roundHalfEvenDiv100_near (o.subtotalCents * 10).toNat).1
    constructor <;> omega
  · intro hh
    rw [htax] at hh ⊢
    simp only [taxCents, roundHalfEvenDiv100Int, TAX_RATE_NUM] at hh ⊢
    rw [if_neg (by omega)] at hh ⊢
    have hnear := (roundHalfEvenDiv100_near (o.subtotalCents * 10).toNat).2
    omega

/-- Witness for C6 at the spec's example: subtotal 250.00 (variant A
price 100.00 × 2 plus variant B price 50.00 × 1) yields tax 25.00 and
total 275.00. -/
theorem checkout_tax_rounds_half_even_witness :
    (create_order_from_cart [⟨1, 10000, 5, true⟩, ⟨2, 5000, 4, true⟩]
        ⟨[⟨1, 10000, 5, true⟩, ⟨2, 5000, 4, true⟩],
         [⟨10, 1, 2, ""⟩, ⟨11, 2, 1, ""⟩], [], []⟩).1
      = .ok ⟨0, 25000, 2500, 27500, .pending⟩
    ∧ (⟨0, 25000, 2500, 27500, .pending⟩ : OrderRec).taxCents = taxCents 25000
    ∧ (⟨0, 25000, 2500, 27500, .pending⟩ : OrderRec).totalCents = 25000 + 2500 :=
  ⟨rfl,
   (checkout_tax_rounds_half_even [⟨1, 10000, 5, true⟩, ⟨2, 5000, 4, true⟩]
      ⟨[⟨1, 10000, 5, true⟩, ⟨2, 5000, 4, true⟩],
       [⟨10, 1, 2, ""⟩, ⟨11, 2, 1, ""⟩], [], []⟩
      ⟨0, 25000, 2500, 27500, .pending⟩ rfl (by decide)).1,
   (checkout_tax_rounds_half_even [⟨1, 10000, 5, true⟩, ⟨2, 5000, 4, true⟩]
      ⟨[⟨1, 10000, 5, true⟩, ⟨2, 5000, 4, true⟩],
       [⟨10, 1, 2, ""⟩, ⟨11, 2, 1, ""⟩], [], []⟩
      ⟨0, 25000, 2500, 27500, .pending⟩ rfl (by decide)).2.1⟩

/-- The order items of the order a successful checkout created, read back
from the final state: exactly one snapshot per loaded cart item.  The
well-formedness hypothesis is the OrderItem→Order foreign key: every
pre-existing order item references an existing (hence lower-id) order. -/
theorem new_order_items_filter (loadVars : List Variant) (s : State)
    (o : OrderRec) (s2 : State)
    (hb : create_order_body loadVars s = .ok (o, s2))
    (hwf : ∀ oi ∈ s.order_items, oi.order_id < s.orders.length) :
    s2.order_items.filter (fun oi => oi.order_id == o.ordid)
      = (loadCartItems loadVars s.cart_items).map (mkOrderItem o.ordid) := by
  obtain ⟨hid, _, _, _, _, _, hoi, _⟩ := create_order_body_ok loadVars s o s2 hb
  rw [hoi, List.filter_append]
  have h1 : s.order_items.filter (fun oi => oi.order_id == o.ordid) = [] := by
    refine List.filter_eq_nil_iff.mpr ?_
    intro oi hmem
    have := hwf oi hmem
    simp only [beq_iff_eq]
    omega
  have h2 : ((loadCartItems loadVars s.cart_items).map (mkOrderItem o.ordid)).filter
      (fun oi => oi.order_id == o.ordid)
      = (loadCartItems loadVars s.cart_items).map (mkOrderItem o.ordid) := by
    refine List.filter_eq_self.mpr ?_
    intro oi hmem
    obtain ⟨it, _, rfl⟩ := List.mem_map.mp hmem
    simp [mkOrderItem]
  rw [h1, h2, List.nil_append]

/-- C9: for every order created by a successful checkout,
`subtotal + tax = total`, and `subtotal` equals the sum of
`line_total = price_at_purchase × quantity` over the OrderItems persisted
for that order. -/
theorem checkout_order_roundtrip (loadVars : List Variant) (s : State)
    (o : OrderRec) (s2 : State)
    (h : create_order_from_cart loadVars s = (.ok o, s2))
    (hwf : ∀ oi ∈ s.order_items, oi.order_id < s.orders.length) :
    o.subtotalCents + o.taxCents = o.totalCents
    ∧ o.subtotalCents =
        ((s2.order_items.filter (fun oi => oi.order_id == o.ordid)).map
          OrderItemRec.line_total).sum := by
  have hb : create_order_body loadVars s = .ok (o, s2) := by
    simp only [create_order_from_cart] at h
    split at h
    · exact absurd h (by simp)
    · rename_i o2 s3 heq
      simp only [Prod.mk.injEq, Except.ok.injEq] at h
      rw [heq, h.1, h.2]
  obtain ⟨_, hsub, _, htot, _⟩ := create_order_body_ok loadVars s o s2 hb
  refine ⟨by omega, ?_⟩
  rw [new_order_items_filter loadVars s o s2 hb hwf, hsub, List.map_map]
  simp only [cartSubtotalCents]
  congr 1

/-- Witness for C9 at a concrete input with a pre-existing order and
order item in the state. -/
theorem checkout_order_roundtrip_witness :
    (25000 : Int) + 2500 = 27500
    ∧ (25000 : Int) =
        (((⟨[⟨1, 12500, 3, true⟩, ⟨2, 5000, 4, true⟩], [],
            [⟨7, 111, 11, 122, .pending⟩, ⟨1, 25000, 2500, 27500, .pending⟩],
            [⟨0, 9, 1, 111, "z"⟩, ⟨1, 1, 2, 12500, "a"⟩]⟩ : State).order_items.filter
            (fun oi => oi.order_id == 1)).map OrderItemRec.line_total).sum :=
  checkout_order_roundtrip [⟨1, 12500, 5, true⟩, ⟨2, 5000, 4, true⟩]
    ⟨[⟨1, 12500, 5, true⟩, ⟨2, 5000, 4, true⟩], [⟨10, 1, 2, "a"⟩],
     [⟨7, 111, 11, 122, .pending⟩], [⟨0, 9, 1, 111, "z"⟩]⟩
    ⟨1, 25000, 2500, 27500, .pending⟩
    ⟨[⟨1, 12500, 3, true⟩, ⟨2, 5000, 4, true⟩], [],
     [⟨7, 111, 11, 122, .pending⟩, ⟨1, 25000, 2500, 27500, .pending⟩],
     [⟨0, 9, 1, 111, "z"⟩, ⟨1, 1, 2, 12500, "a"⟩]⟩
    rfl (by decide)

/-- C5 counterexample: the checkout prices an order from
`item.variant.price`, the row joined by the cart-load query, not from the
row returned by `lock_variants`.  With load-time price 100.00 and a
price of 120.00 committed before the locked read, the persisted
`price_at_purchase` (and the subtotal) is 100.00 while the locked
snapshot's unit price is 120.00. -/
theorem checkout_price_not_locked_snapshot :
    (create_order_from_cart [⟨1, 10000, 5, true⟩]
        ⟨[⟨1, 12000, 5, true⟩], [⟨10, 1, 1, ""⟩], [], []⟩).1
      = .ok ⟨0, 10000, 1000, 11000, .pending⟩
    ∧ ((create_order_from_cart [⟨1, 10000, 5, true⟩]
        ⟨[⟨1, 12000, 5, true⟩], [⟨10, 1, 1, ""⟩], [], []⟩).2.order_items.map
          (fun oi => oi.price_at_purchase)) = [10000]
    ∧ (variant_map_get (lock_variants [⟨1, 12000, 5, true⟩] [1]) 1).map
        Variant.priceCents = some 12000
    ∧ (10000 : Int) ≠ 12000 :=
  ⟨rfl, rfl, by decide, by decide⟩

/-- C5 amended: for every successful checkout, each OrderItem's
`price_at_purchase` equals the unit price of the variant row joined at
cart-load time (the `select_related` read issued before `lock_variants`),
and `Order.subtotal` equals the sum over cart items of that load-time
unit price times quantity; this coincides with the locked snapshot's
price only when no price change commits between the two reads. -/
theorem checkout_price_from_load_snapshot (loadVars : List Variant)
    (s : State) (o : OrderRec) (s2 : State)
    (h : create_order_from_cart loadVars s = (.ok o, s2))
    (hwf : ∀ oi ∈ s.order_items, oi.order_id < s.orders.length) :
    (s2.order_items.filter (fun oi => oi.order_id == o.ordid)).map
        (fun oi => oi.price_at_purchase)
      = (loadCartItems loadVars s.cart_items).map
          (fun it => it.variant.priceCents)
    ∧ o.subtotalCents = cartSubtotalCents (loadCartItems loadVars s.cart_items) := by
  have hb : create_order_body loadVars s = .ok (o, s2) := by
    simp only [create_order_from_cart] at h
    split at h
    · exact absurd h (by simp)
    · rename_i o2 s3 heq
      simp only [Prod.mk.injEq, Except.ok.injEq] at h
      rw [heq, h.1, h.2]
  obtain ⟨_, hsub, _, _, _⟩ := create_order_body_ok loadVars s o s2 hb
  refine ⟨?_, hsub⟩
  rw [new_order_items_filter loadVars s o s2 hb hwf, List.map_map]
  rfl

/-- Witness for C5's amended theorem at the counterexample input. -/
theorem checkout_price_from_load_snapshot_witness :
    ((⟨[⟨1, 12000, 4, true⟩], [],
        [⟨0, 10000, 1000, 11000, .pending⟩],
        [⟨0, 1, 1, 10000, ""⟩]⟩ : State).order_items.filter
        (fun oi => oi.order_id == 0)).map (fun oi => oi.price_at_purchase)
      = (loadCartItems [⟨1, 10000, 5, true⟩] [⟨10, 1, 1, ""⟩]).map
          (fun it => it.variant.priceCents)
    ∧ (10000 : Int) =
        cartSubtotalCents (loadCartItems [⟨1, 10000, 5, true⟩] [⟨10, 1, 1, ""⟩]) :=
  checkout_price_from_load_snapshot [⟨1, 10000, 5, true⟩]
    ⟨[⟨1, 12000, 5, true⟩], [⟨10, 1, 1, ""⟩], [], []⟩
    ⟨0, 10000, 1000, 11000, .pending⟩
    ⟨[⟨1, 12000, 4, true⟩], [], [⟨0, 10000, 1000, 11000, .pending⟩],
     [⟨0, 1, 1, 10000, ""⟩]⟩
    rfl (by decide)

/-- Unfolding `succTotal` over a successful head operation. -/
theorem succTotal_cons_true (op : Nat × Int) (ops : List (Nat × Int))
    (flags : List Bool) :
    succTotal (op :: ops) (true :: flags) = op.2 + succTotal ops flags := by
  simp [succTotal]

/-- Unfolding `succTotal` over a failed head operation. -/
theorem succTotal_cons_false (op : Nat × Int) (ops : List (Nat × Int))
    (flags : List Bool) :
    succTotal (op :: ops) (false :: flags) = succTotal ops flags := by
  simp [succTotal]

/-- Evaluation of one `decrease_stock` against a single-variant table. -/
theorem decrease_stock_single (pid : Nat) (price : Int) (act : Bool)
    (s q : Int) :
    decrease_stock [⟨pid, price, s, act⟩] pid q
      = if q ≤ s then .ok [⟨pid, price, s - q, act⟩]
        else .error (.stockDecrementFailed pid) := by
  by_cases hle : q ≤ s <;>
    simp [decrease_stock, update_where, hle]

/-- Running any sequence of non-negative decrement requests against a
single variant leaves some non-negative final stock, and the successful
decrements account exactly for the stock consumed. -/
theorem runStockOps_single (pid : Nat) (price : Int) (act : Bool) (s : Int)
    (hs : 0 ≤ s) (qs : List Int) (hq : ∀ q ∈ qs, 0 ≤ q) :
    ∃ sFin, 0 ≤ sFin
      ∧ (runStockOps [⟨pid, price, s, act⟩] (qs.map (fun q => (pid, q)))).1
          = [⟨pid, price, sFin, act⟩]
      ∧ succTotal (qs.map (fun q => (pid, q)))
          (runStockOps [⟨pid, price, s, act⟩] (qs.map (fun q => (pid, q)))).2
          = s - sFin := by
  induction qs generalizing s with
  | nil =>
    exact ⟨s, hs, by simp [runStockOps], by simp [runStockOps, succTotal]⟩
  | cons q qs ih =>
    have hq0 : 0 ≤ q := hq q (by simp)
    have hqs : ∀ x ∈ qs, 0 ≤ x := fun x hx => hq x (by simp [hx])
    by_cases hle : q ≤ s
    · obtain ⟨sFin, h0, h1, h2⟩ := ih (s - q) (by omega) hqs
      refine ⟨sFin, h0, ?_, ?_⟩
      · simp only [List.map_cons, runStockOps, decrease_stock_single, if_pos hle]
        exact h1
      · simp only [List.map_cons, runStockOps, decrease_stock_single, if_pos hle]
        rw [succTotal_cons_true]
        simp only at h2 ⊢
        omega
    · obtain ⟨sFin, h0, h1, h2⟩ := ih s hs hqs
      refine ⟨sFin, h0, ?_, ?_⟩
      · simp only [List.map_cons, runStockOps, decrease_stock_single, if_neg hle]
        exact h1
      · simp only [List.map_cons, runStockOps, decrease_stock_single, if_neg hle]
        rw [succTotal_cons_false]
        exact h2

/-- C1: oversell prevention.  Concurrent checkouts serialise at the
database into some sequence of atomic conditional `decrease_stock`
UPDATEs; for every such sequence of non-negative requested quantities
against one variant, the sum of the successful decrements never exceeds
the variant's initial `stock_quantity`, and when two requests together
exceed the stock, they cannot both succeed. -/
theorem concurrent_decrements_no_oversell (v : Variant)
    (h0 : 0 ≤ v.stock_quantity) :
    (∀ qs : List Int, (∀ q ∈ qs, 0 ≤ q) →
        succTotal (qs.map (fun q => (v.id, q)))
          (runStockOps [v] (qs.map (fun q => (v.id, q)))).2 ≤ v.stock_quantity)
    ∧ (∀ q1 q2 : Int, 0 ≤ q1 → 0 ≤ q2 → v.stock_quantity < q1 + q2 →
        (runStockOps [v] [(v.id, q1), (v.id, q2)]).2 ≠ [true, true]) := by
  obtain ⟨pid, price, s, act⟩ := v
  simp only at h0 ⊢
  have hmain : ∀ qs : List Int, (∀ q ∈ qs, 0 ≤ q) →
      succTotal (qs.map (fun q => (pid, q)))
        (runStockOps [⟨pid, price, s, act⟩] (qs.map (fun q => (pid, q)))).2 ≤ s := by
    intro qs hqs
    obtain ⟨sFin, hf0, _, hsum⟩ := runStockOps_single pid price act s h0 qs hqs
    omega
  refine ⟨hmain, ?_⟩
  intro q1 q2 h1 h2 hover hflags
  have hqs : ∀ q ∈ [q1, q2], 0 ≤ q := by
    intro q hqm
    rcases List.mem_cons.mp hqm with h | h
    · omega
    · simp at h; omega
  have := hmain [q1, q2] hqs
  have hmap : ([q1, q2].map (fun q => (pid, q))) = [(pid, q1), (pid, q2)] := rfl
  rw [hmap, hflags] at this
  have hst : succTotal [(pid, q1), (pid, q2)] [true, true] = q1 + q2 := by
    simp [succTotal]
  omega

/-- Witness for C1 at a concrete input: stock 3 with two concurrent
requests of 2 each; the successful total is bounded by 3 and the two
requests do not both succeed. -/
theorem concurrent_decrements_no_oversell_witness :
    succTotal ([(2 : Int), 2].map (fun q => ((1 : Nat), q)))
      (runStockOps [⟨1, 100, 3, true⟩]
        ([(2 : Int), 2].map (fun q => ((1 : Nat), q)))).2 ≤ 3
    ∧ (runStockOps [⟨1, 100, 3, true⟩] [(1, 2), (1, 2)]).2 ≠ [true, true] :=
  ⟨(concurrent_decrements_no_oversell ⟨1, 100, 3, true⟩ (by decide)).1 [2, 2]
     (by decide),
   (concurrent_decrements_no_oversell ⟨1, 100, 3, true⟩ (by decide)).2 2 2
     (by decide) (by decide) (by decide)⟩

/-- C7: `add_item` merges.  With the variant present and active: if the
cart already has a row for the variant, `add_item` validates the new
total against stock, increments that row's quantity in place and creates
no second row (the multiset of variant ids and the row count are
unchanged, and the updated row is present); if the cart has no row for
the variant, exactly one new row with the requested quantity is appended,
and a cart holding at most one row per variant keeps that property. -/
theorem add_item_merges (variants : List Variant) (items : List CartItem)
    (vid : Nat) (qty : Int) (note : String) (newId : Nat) (v : Variant)
    (hv : findVariant variants vid = some v)
    (hact : v.is_active = true) :
    (∀ item, items.find? (fun it => it.variant_id == vid) = some item →
        0 ≤ item.quantity → item.quantity + qty ≤ v.stock_quantity →
        add_item variants items vid qty note newId
          = .ok (items.map (fun it =>
              if it.variant_id = vid then
                { it with quantity := item.quantity + qty,
                          note := if note = "" then it.note else note }
              else it), false)
        ∧ (items.map (fun it =>
              if it.variant_id = vid then
                { it with quantity := item.quantity + qty,
                          note := if note = "" then it.note else note }
              else it)).map (fun it => it.variant_id)
            = items.map (fun it => it.variant_id)
        ∧ { item with quantity := item.quantity + qty,
                      note := if note = "" then item.note else note }
            ∈ items.map (fun it =>
                if it.variant_id = vid then
                  { it with quantity := item.quantity + qty,
                            note := if note = "" then it.note else note }
                else it))
    ∧ (items.find? (fun it => it.variant_id == vid) = none →
        qty ≤ v.stock_quantity →
        add_item variants items vid qty note newId
          = .ok (items ++ [(⟨newId, vid, qty, note⟩ : CartItem)], true)
        ∧ ((items.map (fun it => it.variant_id)).Nodup →
            ((items ++ [(⟨newId, vid, qty, note⟩ : CartItem)]).map
              (fun it => it.variant_id)).Nodup)) := by
  constructor
  · intro item hfind hq0 hle
    have hq : ¬ qty > v.stock_quantity := by omega
    have hq2 : ¬ item.quantity + qty > v.stock_quantity := by omega
    refine ⟨?_, ?_, ?_⟩
    · simp only [add_item, hv, validate_stock, hact, Bool.not_true,
        Bool.false_eq_true, if_false, if_neg hq, hfind, if_neg hq2]
    · rw [List.map_map]
      apply List.map_congr_left
      intro it _
      by_cases hit : it.variant_id = vid <;> simp [hit]
    · have hmem : item ∈ items := List.mem_of_find?_eq_some hfind
      have hid : item.variant_id = vid := by
        have := List.find?_some hfind
        simpa using this
      have := List.mem_map_of_mem (fun it =>
        if it.variant_id = vid then
          ({ it with quantity := item.quantity + qty,
                     note := if note = "" then it.note else note } : CartItem)
        else it) hmem
      simpa [hid] using this
  · intro hnone hle
    have hq : ¬ qty > v.stock_quantity := by omega
    refine ⟨?_, ?_⟩
    · simp only [add_item, hv, validate_stock, hact, Bool.not_true,
        Bool.false_eq_true, if_false, if_neg hq, hnone]
    · intro hnodup
      rw [List.map_append]
      simp only [List.map_cons, List.map_nil]
      rw [List.nodup_append]
      have hdisj : ∀ x ∈ items.map (fun it => it.variant_id), x ∈ [vid] → False := by
        intro x hx hx2
        obtain ⟨it, hit, hfx⟩ := List.mem_map.mp hx
        have hall := List.find?_eq_none.mp hnone it hit
        simp only [beq_iff_eq] at hall
        simp only [List.mem_singleton] at hx2
        exact hall (by rw [hfx, hx2])
      exact ⟨hnodup, List.nodup_singleton vid, hdisj⟩

/-- Witness for C7 at concrete inputs: merging an existing row (2 + 2 =
4, one row) and creating a fresh row. -/
theorem add_item_merges_witness :
    add_item [⟨1, 100, 10, true⟩] [⟨10, 1, 2, "old"⟩] 1 2 "n" 99
      = .ok ([⟨10, 1, 4, "n"⟩], false)
    ∧ add_item [⟨1, 100, 10, true⟩] [] 1 2 "n" 99
      = .ok ([⟨99, 1, 2, "n"⟩], true) :=
  ⟨((add_item_merges [⟨1, 100, 10, true⟩] [⟨10, 1, 2, "old"⟩] 1 2 "n" 99
      ⟨1, 100, 10, true⟩ rfl rfl).1 ⟨10, 1, 2, "old"⟩ rfl (by decide) (by decide)).1,
   ((add_item_merges [⟨1, 100, 10, true⟩] [] 1 2 "n" 99
      ⟨1, 100, 10, true⟩ rfl rfl).2 rfl (by decide)).1⟩

/-- C10: note-field asymmetry between the two cart mutations.  For an
existing cart item, `update_item` overwrites the stored note with any
supplied note — including the empty string, which clears it — and leaves
the note unchanged exactly when the note argument is `none`; whereas
`add_item` on an existing row with the (default) empty note keeps the
previously stored note. -/
theorem update_item_note_asymmetry (variants : List Variant)
    (items : List CartItem) (item : CartItem) (item_pk : Nat)
    (hfind : items.find? (fun it => it.id == item_pk) = some item) :
    (∀ n : String, update_item variants items item_pk none (some n)
        = .ok ({ item with note := n },
               items.map (fun it =>
                 if it.id = item_pk then { item with note := n } else it)))
    ∧ (update_item variants items item_pk none none
        = .ok (item, items.map (fun it =>
            if it.id = item_pk then item else it)))
    ∧ (∀ (v : Variant) (qty : Int),
        findVariant variants item.variant_id = some v → v.is_active = true →
        0 ≤ item.quantity → item.quantity + qty ≤ v.stock_quantity →
        items.find? (fun it => it.variant_id == item.variant_id) = some item →
        add_item variants items item.variant_id qty "" 0
          = .ok (items.map (fun it =>
              if it.variant_id = item.variant_id then
                { it with quantity := item.quantity + qty }
              else it), false)) := by
  refine ⟨?_, ?_, ?_⟩
  · intro n
    simp [update_item, hfind]
  · simp [update_item, hfind]
  · intro v qty hv hact hq0 hle hfind2
    have hq : ¬ qty > v.stock_quantity := by omega
    have hq2 : ¬ item.quantity + qty > v.stock_quantity := by omega
    simp only [add_item, hv, validate_stock, hact, Bool.not_true,
      Bool.false_eq_true, if_false, if_neg hq, hfind2, if_neg hq2, if_true]

/-- Witness for C10 at concrete inputs: updating with note "" clears the
stored note, updating with no note keeps it, and re-adding with an empty
note keeps it. -/
theorem update_item_note_asymmetry_witness :
    update_item [⟨1, 100, 10, true⟩] [⟨10, 1, 2, "old"⟩] 10 none (some "")
      = .ok (⟨10, 1, 2, ""⟩, [⟨10, 1, 2, ""⟩])
    ∧ update_item [⟨1, 100, 10, true⟩] [⟨10, 1, 2, "old"⟩] 10 none none
      = .ok (⟨10, 1, 2, "old"⟩, [⟨10, 1, 2, "old"⟩])
    ∧ add_item [⟨1, 100, 10, true⟩] [⟨10, 1, 2, "old"⟩] 1 2 "" 0
      = .ok ([⟨10, 1, 4, "old"⟩], false) :=
  ⟨(update_item_note_asymmetry [⟨1, 100, 10, true⟩] [⟨10, 1, 2, "old"⟩]
      ⟨10, 1, 2, "old"⟩ 10 rfl).1 "",
   (update_item_note_asymmetry [⟨1, 100, 10, true⟩] [⟨10, 1, 2, "old"⟩]
      ⟨10, 1, 2, "old"⟩ 10 rfl).2.1,
   (update_item_note_asymmetry [⟨1, 100, 10, true⟩] [⟨10, 1, 2, "old"⟩]
      ⟨10, 1, 2, "old"⟩ 10 rfl).2.2 ⟨1, 100, 10, true⟩ 2 rfl rfl
      (by decide) (by decide) rfl⟩
